import Mathlib

/-!
Verification of the acquisition–normalization–export pipeline of the
"Get Data from Steam / SteamDB" userscript, as a shallow embedding of the
script's core functions: the store-API normalizer (`AppDataClient.normalize`),
the cache-aware fetch (`AppDataClient.fetch` / `readCache` / `writeCache`),
the SteamDB page scraper (`collectDlc`, `collectAchievements`,
`collectDepots`, `deduplicate`), the DLC reconciliation of
`updateFromSteamDb`, and the `exporters.creamApi` serializer.

DOM access is embedded as the data the scraper reads from each table row
(attributes, cell text, link text); `fetch`'s network transport is embedded
as an environment record carrying the HTTP status and parsed JSON body; the
clock (`new Date().toISOString()`) is passed in as a string parameter.
-/

namespace GDS

/-! ## utils.text — `String(value).trim()` with null/undefined mapped to "" -/

/-- Characters removed by JavaScript's `String.prototype.trim` (the ASCII
subset that the embedded strings use). -/
def trimLeftChars : List Char → List Char
  | [] => []
  | c :: rest => if c.isWhitespace then trimLeftChars rest else c :: rest

/-- Model of JavaScript `s.trim()`: whitespace removed from both ends. -/
def jsTrim (s : String) : String :=
  String.mk (trimLeftChars (trimLeftChars s.data.reverse).reverse)

/-- `utils.text(value)` (part_000 lines 62–67): null/undefined become "",
anything else is stringified and trimmed.  The embedded call sites only ever
pass a string or null/undefined, so the argument is an `Option String`. -/
def text : Option String → String
  | none => ""
  | some s => jsTrim s

/-! ## Data model of the Steam store API response (part_000 typedefs, lines 1103–1130) -/

structure ReleaseDate where
  date : Option String
  coming_soon : Option Bool
deriving DecidableEq

structure PriceOverview where
  final_formatted : Option String
deriving DecidableEq

structure PackageSub where
  packageid : Int
  title : String
  price_in_cents_with_discount : Int
  discount_pct : Int
deriving DecidableEq

structure PackageGroup where
  subs : Option (List PackageSub)
deriving DecidableEq

structure Platforms where
  windows : Option Bool
  mac : Option Bool
  linux : Option Bool
deriving DecidableEq

/-- `SteamApiAppData`: the `data` member of one appdetails entry.  Every
field can be absent in the JSON, hence `Option`. -/
structure SteamApiAppData where
  name : Option String
  type : Option String
  release_date : Option ReleaseDate
  price_overview : Option PriceOverview
  developers : Option (List String)
  publishers : Option (List String)
  package_groups : Option (List PackageGroup)
  platforms : Option Platforms
  dlc : Option (List Int)
deriving DecidableEq

/-- `SteamApiResponse`: one entry of the appdetails payload,
`{ success, data }`. -/
structure SteamApiResponse where
  success : Bool
  data : Option SteamApiAppData
deriving DecidableEq

/-- One flattened package record produced by `normalize`
(part_000 lines 346–356). -/
structure PackageRecord where
  id : String
  title : String
  price : Rat
  discount : Int
deriving DecidableEq

/-- `AppPayload`: the normalized store record (part_000 lines 358–371). -/
structure AppPayload where
  appId : String
  name : Option String
  type : Option String
  releaseDate : Option String
  isReleased : Bool
  developers : List String
  publishers : List String
  priceOverview : Option PriceOverview
  platforms : Platforms
  dlc : List String
  packages : List PackageRecord
  fetchedAt : String
deriving DecidableEq

/-- An app-data object with every field absent: the value of `data ?? {}`
when `data` is null/undefined. -/
def emptyAppData : SteamApiAppData :=
  ⟨none, none, none, none, none, none, none, none, none⟩

/-- `AppDataClient.normalize(appId, data)` (part_000 lines 333–372).
The destructuring defaults (`developers = []`, `publishers = []`,
`package_groups = []`, `platforms = {}`, `dlc = []`) become `getD`;
`releaseDate?.date` and `releaseDate?.coming_soon === false` become
`Option.bind` plus a decidable equality with `some false`; package groups
are flattened with `group?.subs` guarding absent sub lists, the price being
`price_in_cents_with_discount / 100`; `dlc?.map(String) ?? []` stringifies
each dlc id.  `new Date().toISOString()` is the `nowIso` parameter. -/
def normalize (appId : String) (data : Option SteamApiAppData) (nowIso : String) : AppPayload :=
  let d := data.getD emptyAppData
  let packageGroups := d.package_groups.getD []
  let packages := packageGroups.flatMap fun group =>
    match group.subs with
    | none => []
    | some subs => subs.map fun entry =>
        { id := toString entry.packageid
          title := entry.title
          price := (entry.price_in_cents_with_discount : Rat) / 100
          discount := entry.discount_pct }
  { appId := appId
    name := d.name
    type := d.type
    releaseDate := d.release_date.bind ReleaseDate.date
    isReleased := decide (d.release_date.bind ReleaseDate.coming_soon = some false)
    developers := d.developers.getD []
    publishers := d.publishers.getD []
    priceOverview := d.price_overview
    platforms := d.platforms.getD ⟨none, none, none⟩
    dlc := (d.dlc.getD []).map toString
    packages := packages
    fetchedAt := nowIso }

/-! ## SteamDbScraper.deduplicate (part_000 lines 479–491) -/

/-- Recursive worker for `deduplicate`: `seen` is the `Set` of keys already
kept.  A row is skipped when `!key` (the key is the empty string, which is
falsy) or when `seen.has(key)`; otherwise it is kept and its key added. -/
def dedupGo (resolver : α → String) : List α → List String → List α
  | [], _ => []
  | entry :: rest, seen =>
    if resolver entry = "" ∨ resolver entry ∈ seen then
      dedupGo resolver rest seen
    else
      entry :: dedupGo resolver rest (resolver entry :: seen)

/-- `SteamDbScraper.deduplicate(list, resolver)`: removes duplicates while
keeping the first occurrence, starting from an empty `seen` set. -/
def deduplicate (list : List α) (resolver : α → String) : List α :=
  dedupGo resolver list []

/-! ## SteamDB page scraper (part_000 lines 381–469)

The DOM is embedded as the data each collector reads from a table row:
`getAttribute` results are `Option String`, a `<td>`'s `textContent` is a
`String`, and the optional `<a>` inside the name cell is the cell's
`linkText`. -/

/-- One `<td>` cell: its `textContent` and, when the cell contains an `<a>`
element, that link's `textContent`. -/
structure Cell where
  textContent : String
  linkText : Option String
deriving DecidableEq

/-- A row of the `#dlc` table: the `data-appid` attribute and the cells. -/
structure DlcRow where
  dataAppid : Option String
  cells : List Cell
deriving DecidableEq

/-- A DLC record `{ id, name }` (typedef `SteamDbDlcEntry`). -/
structure SteamDbDlcEntry where
  id : String
  name : String
deriving DecidableEq

/-- The id derivation of `collectDlc` (line 396):
`row.getAttribute("data-appid") ?? utils.text(cells[0]?.textContent)`. -/
def dlcRowId (row : DlcRow) : String :=
  match row.dataAppid with
  | some a => a
  | none => text (row.cells.head?.map Cell.textContent)

/-- The name derivation of `collectDlc` (lines 400–402): the name cell is
`cells[1] ?? cells[0]`, and the name is
`utils.text(nameLink?.textContent || nameCell?.textContent)` — the trimmed
link text, falling back to the trimmed cell text when the link text is
falsy (absent link or empty string). -/
def dlcRowName (row : DlcRow) : String :=
  let nameCell := match row.cells[1]? with
    | some c => some c
    | none => row.cells[0]?
  let nameLink := nameCell.bind Cell.linkText
  text (match nameLink with
    | some s => if s = "" then nameCell.map Cell.textContent else some s
    | none => nameCell.map Cell.textContent)

/-- The body of the `rows.forEach` of `collectDlc` (lines 391–407): what one
row contributes to `items`.  Rows without cells, or whose derived id is
falsy, contribute nothing; otherwise the record carries the trimmed id and
the derived name, with the synthetic ``DLC ${id.trim()}`` fallback when the
derived name is empty (line 405). -/
def collectDlcRow (row : DlcRow) : List SteamDbDlcEntry :=
  if row.cells.isEmpty then []
  else if dlcRowId row = "" then []
  else
    [{ id := jsTrim (dlcRowId row)
       name := if dlcRowName row = "" then "DLC " ++ jsTrim (dlcRowId row)
         else dlcRowName row }]

/-- `SteamDbScraper.collectDlc()` (lines 386–409) over the rows of
`#dlc table tbody tr`. -/
def collectDlc (rows : List DlcRow) : List SteamDbDlcEntry :=
  deduplicate (rows.flatMap collectDlcRow) SteamDbDlcEntry.id

/-- An `<img>` inside an achievements row: its `src` and `data-hover-src`
attributes. -/
structure Img where
  src : Option String
  hoverSrc : Option String
deriving DecidableEq

/-- A row of the `#achievements` table: the `data-name` attribute, the
`textContent` of `td:nth-child(2)`, `(3)`, `(4)` when those cells exist,
and the first `<img>` when present. -/
structure AchRow where
  dataName : Option String
  td2 : Option String
  td3 : Option String
  td4 : Option String
  img : Option Img
deriving DecidableEq

/-- An achievement record (typedef `SteamDbAchievementEntry`). -/
structure SteamDbAchievementEntry where
  name : String
  displayName : String
  description : String
  icon : String
  iconGray : String
deriving DecidableEq

/-- The api-name derivation of `collectAchievements` (line 421):
`row.getAttribute("data-name") ?? utils.text(row.querySelector("td:nth-child(2)")?.textContent)`. -/
def achRowApiName (row : AchRow) : String :=
  match row.dataName with
  | some a => a
  | none => text row.td2

/-- The body of the `rows.forEach` of `collectAchievements` (lines 420–435):
a row with a falsy api name contributes nothing; the display name falls
back to the api name when the name cell trims to empty. -/
def collectAchRow (row : AchRow) : List SteamDbAchievementEntry :=
  if achRowApiName row = "" then []
  else
    let displayName := text row.td3
    [{ name := achRowApiName row
       displayName := if displayName = "" then achRowApiName row else displayName
       description := text row.td4
       icon := (row.img.bind Img.src).getD ""
       iconGray := (row.img.bind Img.hoverSrc).getD "" }]

/-- `SteamDbScraper.collectAchievements()` (lines 415–437). -/
def collectAchievements (rows : List AchRow) : List SteamDbAchievementEntry :=
  deduplicate (rows.flatMap collectAchRow) SteamDbAchievementEntry.name

/-- A row of the `#depots` table: the `data-depotid` and `data-os`
attributes and the cells. -/
structure DepotRow where
  dataDepotid : Option String
  dataOs : Option String
  cells : List Cell
deriving DecidableEq

/-- A depot record (typedef `SteamDbDepotEntry`). -/
structure SteamDbDepotEntry where
  id : String
  name : String
  manifests : String
  osList : String
deriving DecidableEq

/-- The id derivation of `collectDepots` (line 453):
`row.getAttribute("data-depotid") ?? utils.text(cells[0]?.textContent)`. -/
def depotRowId (row : DepotRow) : String :=
  match row.dataDepotid with
  | some a => a
  | none => text (row.cells.head?.map Cell.textContent)

/-- The name derivation of `collectDepots` (lines 457–458): the trimmed text
of `cells[1] ?? cells[0]`. -/
def depotRowName (row : DepotRow) : String :=
  let nameCell := match row.cells[1]? with
    | some c => some c
    | none => row.cells[0]?
  text (nameCell.map Cell.textContent)

/-- The body of the `rows.forEach` of `collectDepots` (lines 448–467), with
the ``Depot ${id.trim()}`` fallback when the name cell trims to empty. -/
def collectDepotRow (row : DepotRow) : List SteamDbDepotEntry :=
  if row.cells.isEmpty then []
  else if depotRowId row = "" then []
  else
    [{ id := jsTrim (depotRowId row)
       name := if depotRowName row = "" then "Depot " ++ jsTrim (depotRowId row)
         else depotRowName row
       manifests := text ((row.cells[2]?).map Cell.textContent)
       osList := text row.dataOs }]

/-- `SteamDbScraper.collectDepots()` (lines 443–469). -/
def collectDepots (rows : List DepotRow) : List SteamDbDepotEntry :=
  deduplicate (rows.flatMap collectDepotRow) SteamDbDepotEntry.id

/-! ## exporters.creamApi (part_000 lines 504–513) and the DLC reconciliation
of updateFromSteamDb (lines 1078–1089). -/

/-- `PanelState.dlc` holds `SteamDbDlcEntry | string`: either a rich scraped
record or a bare id string from the normalized store record. -/
inductive DlcInput where
  | str (s : String)
  | entry (e : SteamDbDlcEntry)
deriving DecidableEq

/-- `typeof item === "string" ? item : item.id` (line 507). -/
def dlcInputId : DlcInput → String
  | .str s => s
  | .entry e => e.id

/-- ``typeof item === "string" ? `DLC ${item}` : item.name`` (line 508). -/
def dlcInputName : DlcInput → String
  | .str s => "DLC " ++ s
  | .entry e => e.name

/-- `.map((item, index) => ...)` with the running index made explicit. -/
def mapWithIndex (f : α → Nat → β) : List α → Nat → List β
  | [], _ => []
  | x :: xs, i => f x i :: mapWithIndex f xs (i + 1)

/-- The lines of the `[dlc]` section body (lines 505–511):
``dlc${index + 1} = ${id} ; ${name}`` per entry, in input order. -/
def creamApiLines (dlcEntries : List DlcInput) : List String :=
  mapWithIndex
    (fun item index =>
      "dlc" ++ toString (index + 1) ++ " = " ++ dlcInputId item ++ " ; " ++ dlcInputName item)
    dlcEntries 0

/-- `exporters.creamApi(appId, dlcEntries)` (lines 504–513): the comment
header, the `[steam]` section with the app id, a blank line, and the `[dlc]`
section whose body joins the per-entry lines with newlines. -/
def creamApi (appId : String) (dlcEntries : List DlcInput) : String :=
  let body := String.intercalate "\n" (creamApiLines dlcEntries)
  "; cream_api autogenerated by Get Data from Steam / SteamDB\n[steam]\nappid = "
    ++ appId ++ "\n\n[dlc]\n" ++ body

/-- The DLC reconciliation of `updateFromSteamDb` (line 1083):
`state.dlc = dlcEntries.length ? dlcEntries : state.store?.dlc ?? []`.
A non-empty scraped list is used as-is; otherwise the bare id list of the
last normalized store record (empty when no record exists). -/
def reconcileDlc (scraped : List SteamDbDlcEntry) (store : Option AppPayload) : List DlcInput :=
  if scraped.length ≠ 0 then scraped.map DlcInput.entry
  else ((store.map AppPayload.dlc).getD []).map DlcInput.str

/-! ## AppDataClient.fetch (part_000 lines 251–294) with its cache
(`readCache` lines 301–312, `writeCache` lines 319–325).

The session storage is embedded as an association list from cache keys to
stored records (`writeCache` stores `JSON.stringify(value)` and `readCache`
parses it back, so the store is modelled at the record level); the network
transport is an environment carrying `response.ok`, `response.status`, the
parsed body entry `payload?.[appId]`, whether `sessionStorage.setItem`
throws, and the clock value. -/

structure FetchEnv where
  ok : Bool
  status : Nat
  payload : Option SteamApiResponse
  writeFails : Bool
  now : String
deriving DecidableEq

/-- The mutable state of one `AppDataClient`: the session-storage cache and
the generation of `this.controller` (`none` before the first request). -/
structure ClientState where
  cache : List (String × AppPayload)
  controller : Option Nat
deriving DecidableEq

/-- `` `gds:store:${appId}` `` (line 252). -/
def cacheKey (appId : String) : String := "gds:store:" ++ appId

/-- `readCache(key)` (lines 301–312): `sessionStorage.getItem` on the
association list. -/
def readCache (cache : List (String × AppPayload)) (key : String) : Option AppPayload :=
  (cache.find? (fun p => p.1 == key)).map Prod.snd

/-- `sessionStorage.setItem(key, value)`: replaces any entry under `key`. -/
def cacheSet (cache : List (String × AppPayload)) (key : String) (v : AppPayload) :
    List (String × AppPayload) :=
  (key, v) :: cache.filter (fun p => p.1 != key)

/-- The outcome of one `fetch` execution: the returned or thrown value, the
client state afterwards, and how many network requests were issued. -/
structure FetchOutcome where
  result : Except String AppPayload
  state : ClientState
  networkCalls : Nat

/-- `AppDataClient.fetch(appId, forceRefresh)` (lines 251–294).  Unless
`forceRefresh` is set, a cache hit under `gds:store:<appId>` returns the
stored record with no network request.  Otherwise the previous controller
is aborted and replaced (lines 260–263), the request is issued, a non-ok
status throws `Steam Store API responded with <status>`, a body without a
successful entry for the app id throws
`Steam Store API returned an empty response`, and a successful entry is
normalized, written to cache (`writeCache` swallowing storage failures,
lines 319–325) and returned. -/
def fetchStep (env : FetchEnv) (st : ClientState) (appId : String) (forceRefresh : Bool) :
    FetchOutcome :=
  match (if forceRefresh then none else readCache st.cache (cacheKey appId)) with
  | some cached => ⟨Except.ok cached, st, 0⟩
  | none =>
    let st1 : ClientState := { st with controller := some (st.controller.getD 0 + 1) }
    if env.ok = false then
      ⟨Except.error ("Steam Store API responded with " ++ toString env.status), st1, 1⟩
    else
      match env.payload with
      | some entry =>
        if entry.success then
          let normalized := normalize appId entry.data env.now
          let st2 := if env.writeFails then st1
            else { st1 with cache := cacheSet st1.cache (cacheKey appId) normalized }
          ⟨Except.ok normalized, st2, 1⟩
        else ⟨Except.error "Steam Store API returned an empty response", st1, 1⟩
      | none => ⟨Except.error "Steam Store API returned an empty response", st1, 1⟩

/-! ## Cancellation race (part_000 lines 260–263 and 291–293)

Overlapping `fetch(appId, true)` executions are modelled as an event
sequence over one client.  `start i` performs the synchronous head of call
`i`: abort the current `AbortController` (if any), install a fresh one, and
issue the network request under the fresh token.  `respond i` resumes call
`i` at its suspension point: if its token was aborted meanwhile, the
awaited `fetch` rejects with an abort error and nothing is applied;
otherwise the response is normalized, written to cache and returned. -/

inductive FetchEv where
  | start (callIdx : Nat)
  | respond (callIdx : Nat)
deriving DecidableEq

structure RaceState where
  nextToken : Nat
  controller : Option Nat
  aborted : List Nat
  inFlight : List (Nat × Nat)
  cacheFrom : Option Nat
  applied : List Nat
  failed : List Nat
deriving DecidableEq

def RaceState.init : RaceState := ⟨0, none, [], [], none, [], []⟩

def raceStep (s : RaceState) : FetchEv → RaceState
  | .start i =>
    { s with
        nextToken := s.nextToken + 1
        controller := some s.nextToken
        aborted := match s.controller with
          | some t => t :: s.aborted
          | none => s.aborted
        inFlight := s.inFlight ++ [(i, s.nextToken)] }
  | .respond i =>
    match s.inFlight.find? (fun p => p.1 == i) with
    | none => s
    | some flight =>
      if flight.2 ∈ s.aborted then
        { s with
            inFlight := s.inFlight.filter (fun p => p.1 != i)
            failed := i :: s.failed }
      else
        { s with
            inFlight := s.inFlight.filter (fun p => p.1 != i)
            cacheFrom := some i
            applied := i :: s.applied }

/-- Run a sequence of fetch events from the initial client state. -/
def race (evs : List FetchEv) : RaceState := evs.foldl raceStep .init

/-- The in-flight requests whose cancellation token has not been aborted. -/
def uncancelled (s : RaceState) : List (Nat × Nat) :=
  s.inFlight.filter (fun p => decide (p.2 ∉ s.aborted))

/-! Concrete fixtures used to instantiate the verified properties. -/

/-- A normalized record as stored in the cache fixture. -/
def samplePayload : AppPayload :=
  ⟨"10", none, none, none, false, [], [], none, ⟨none, none, none⟩, [], [], "t0"⟩

/-- A client state whose cache holds `samplePayload` under `gds:store:10`. -/
def sampleCachedState : ClientState :=
  ⟨[("gds:store:10", samplePayload)], none⟩

/-- An environment whose transport succeeds (unused on cache hits). -/
def sampleEnvOk : FetchEnv := ⟨true, 200, none, false, "t1"⟩

/-- An environment whose transport reports HTTP 500. -/
def sampleEnvHttp500 : FetchEnv := ⟨false, 500, none, false, "t1"⟩

theorem dedupGo_sublist (resolver : α → String) (l : List α) (seen : List String) :
    List.Sublist (dedupGo resolver l seen) l := by
  induction l generalizing seen with
  | nil => simp [dedupGo]
  | cons e rest ih =>
    rw [dedupGo]
    split
    · exact List.Sublist.cons e (ih seen)
    · exact List.Sublist.cons₂ e (ih (resolver e :: seen))

theorem dedupGo_key_not_seen (resolver : α → String) (l : List α) (seen : List String) :
    ∀ e ∈ dedupGo resolver l seen, resolver e ≠ "" ∧ resolver e ∉ seen := by
  induction l generalizing seen with
  | nil => simp [dedupGo]
  | cons a rest ih =>
    rw [dedupGo]
    split
    · exact ih seen
    · rename_i hcond
      push_neg at hcond
      intro e he
      rcases List.mem_cons.mp he with rfl | htail
      · exact ⟨hcond.1, hcond.2⟩
      · have := ih (resolver a :: seen) e htail
        exact ⟨this.1, fun hmem => this.2 (List.mem_cons_of_mem _ hmem)⟩

theorem dedupGo_keys_nodup (resolver : α → String) (l : List α) (seen : List String) :
    ((dedupGo resolver l seen).map resolver).Nodup := by
  induction l generalizing seen with
  | nil => simp [dedupGo]
  | cons a rest ih =>
    rw [dedupGo]
    split
    · exact ih seen
    · rw [List.map_cons, List.nodup_cons]
      refine ⟨?_, ih (resolver a :: seen)⟩
      intro hmem
      rcases List.mem_map.mp hmem with ⟨e, he, hkey⟩
      have := (dedupGo_key_not_seen resolver rest (resolver a :: seen) e he).2
      exact this (hkey ▸ List.mem_cons_self _ _)

theorem dedupGo_find? (resolver : α → String) (l : List α) (seen : List String)
    (k : String) (hk : k ≠ "") (hs : k ∉ seen) :
    (dedupGo resolver l seen).find? (fun e => resolver e == k)
      = l.find? (fun e => resolver e == k) := by
  induction l generalizing seen with
  | nil => simp [dedupGo]
  | cons a rest ih =>
    rw [dedupGo]
    split
    · rename_i hcond
      have hne : resolver a ≠ k := by
        rcases hcond with hempty | hseen
        · intro h; exact hk (h ▸ hempty)
        · intro h; exact hs (h ▸ hseen)
      rw [List.find?_cons_of_neg _ (by simpa using hne), ih seen hs]
    · rename_i hcond
      by_cases hak : resolver a = k
      · rw [List.find?_cons_of_pos _ (by simpa using hak),
          List.find?_cons_of_pos _ (by simpa using hak)]
      · rw [List.find?_cons_of_neg _ (by simpa using hak),
          List.find?_cons_of_neg _ (by simpa using hak)]
        exact ih (resolver a :: seen) (by
          intro hmem
          rcases List.mem_cons.mp hmem with h | h
          · exact hak h.symm
          · exact hs h)

theorem deduplicate_sublist (l : List α) (resolver : α → String) :
    List.Sublist (deduplicate l resolver) l :=
  dedupGo_sublist resolver l []

theorem deduplicate_keys_nodup (l : List α) (resolver : α → String) :
    ((deduplicate l resolver).map resolver).Nodup :=
  dedupGo_keys_nodup resolver l []

theorem deduplicate_find? (l : List α) (resolver : α → String) (k : String) (hk : k ≠ "") :
    (deduplicate l resolver).find? (fun e => resolver e == k)
      = l.find? (fun e => resolver e == k) :=
  dedupGo_find? resolver l [] k hk (by simp)

theorem deduplicate_key_ne_empty (l : List α) (resolver : α → String) :
    ∀ e ∈ deduplicate l resolver, resolver e ≠ "" :=
  fun e he => (dedupGo_key_not_seen resolver l [] e he).1

/-! Helper lemmas about `mapWithIndex` and non-empty synthesized names. -/

theorem mapWithIndex_length (f : α → Nat → β) (l : List α) (n : Nat) :
    (mapWithIndex f l n).length = l.length := by
  induction l generalizing n with
  | nil => rfl
  | cons x xs ih => simp [mapWithIndex, ih]

theorem mapWithIndex_getElem? (f : α → Nat → β) (l : List α) (n i : Nat) :
    (mapWithIndex f l n)[i]? = (l[i]?).map (fun a => f a (n + i)) := by
  induction l generalizing n i with
  | nil => simp [mapWithIndex]
  | cons x xs ih =>
    cases i with
    | zero => simp [mapWithIndex]
    | succ j =>
      simp only [mapWithIndex, List.getElem?_cons_succ, ih (n + 1) j]
      have : n + 1 + j = n + (j + 1) := by omega
      rw [this]

theorem append_left_ne_nil (s t : String) (h : s.length ≠ 0) : s ++ t ≠ "" := by
  intro hc
  have hl := congrArg String.length hc
  rw [String.length_append] at hl
  have h0 : ("" : String).length = 0 := rfl
  omega

theorem mem_collectDlcRow_name_ne (row : DlcRow) (e : SteamDbDlcEntry)
    (he : e ∈ collectDlcRow row) : e.name ≠ "" := by
  unfold collectDlcRow at he
  split at he
  · simp at he
  · split at he
    · simp at he
    · simp only [List.mem_singleton] at he
      subst he
      simp only
      split
      · exact append_left_ne_nil _ _ (by decide)
      · assumption

theorem mem_collectDlc_name_ne (rows : List DlcRow) (e : SteamDbDlcEntry)
    (he : e ∈ collectDlc rows) : e.name ≠ "" := by
  unfold collectDlc deduplicate at he
  have hmem := (dedupGo_sublist SteamDbDlcEntry.id (rows.flatMap collectDlcRow) []).subset he
  rcases List.mem_flatMap.mp hmem with ⟨row, _, hrow⟩
  exact mem_collectDlcRow_name_ne row e hrow

theorem mem_collectAchRow_displayName_ne (row : AchRow) (e : SteamDbAchievementEntry)
    (he : e ∈ collectAchRow row) : e.displayName ≠ "" := by
  unfold collectAchRow at he
  split at he
  · simp at he
  · rename_i hname
    simp only [List.mem_singleton] at he
    subst he
    simp only
    split
    · exact hname
    · assumption

theorem mem_collectAchievements_displayName_ne (rows : List AchRow)
    (e : SteamDbAchievementEntry) (he : e ∈ collectAchievements rows) :
    e.displayName ≠ "" := by
  unfold collectAchievements deduplicate at he
  have hmem := (dedupGo_sublist SteamDbAchievementEntry.name (rows.flatMap collectAchRow) []).subset he
  rcases List.mem_flatMap.mp hmem with ⟨row, _, hrow⟩
  exact mem_collectAchRow_displayName_ne row e hrow

theorem mem_collectDepotRow_name_ne (row : DepotRow) (e : SteamDbDepotEntry)
    (he : e ∈ collectDepotRow row) : e.name ≠ "" := by
  unfold collectDepotRow at he
  split at he
  · simp at he
  · split at he
    · simp at he
    · simp only [List.mem_singleton] at he
      subst he
      simp only
      split
      · exact append_left_ne_nil _ _ (by decide)
      · assumption

theorem mem_collectDepots_name_ne (rows : List DepotRow) (e : SteamDbDepotEntry)
    (he : e ∈ collectDepots rows) : e.name ≠ "" := by
  unfold collectDepots deduplicate at he
  have hmem := (dedupGo_sublist SteamDbDepotEntry.id (rows.flatMap collectDepotRow) []).subset he
  rcases List.mem_flatMap.mp hmem with ⟨row, _, hrow⟩
  exact mem_collectDepotRow_name_ne row e hrow

theorem collectDlcRow_eq_nil (row : DlcRow)
    (h : row.cells.isEmpty = true ∨ dlcRowId row = "") : collectDlcRow row = [] := by
  unfold collectDlcRow
  by_cases he : row.cells.isEmpty = true
  · rw [if_pos he]
  · rcases h with h | h
    · exact absurd h he
    · rw [if_neg he, if_pos h]

theorem collectDepotRow_eq_nil (row : DepotRow)
    (h : row.cells.isEmpty = true ∨ depotRowId row = "") : collectDepotRow row = [] := by
  unfold collectDepotRow
  by_cases he : row.cells.isEmpty = true
  · rw [if_pos he]
  · rcases h with h | h
    · exact absurd h he
    · rw [if_neg he, if_pos h]

theorem collectAchRow_eq_nil (row : AchRow) (h : achRowApiName row = "") :
    collectAchRow row = [] := by
  unfold collectAchRow
  rw [if_pos h]

/-! Helper lemmas for the cancellation-race model. -/

/-- Invariant of the race model: every in-flight token is below the token
counter, every uncancelled in-flight token is the current controller's, and
no token is in flight twice. -/
def RaceInv (s : RaceState) : Prop :=
  (∀ p ∈ s.inFlight, p.2 < s.nextToken)
  ∧ (∀ p ∈ s.inFlight, p.2 ∉ s.aborted → s.controller = some p.2)
  ∧ (s.inFlight.map Prod.snd).Nodup

theorem raceInv_init : RaceInv RaceState.init := by
  unfold RaceInv
  refine ⟨?_, ?_, ?_⟩ <;> simp [RaceState.init]

theorem raceInv_step (s : RaceState) (hInv : RaceInv s) (ev : FetchEv) :
    RaceInv (raceStep s ev) := by
  obtain ⟨hlt, hctl, hnodup⟩ := hInv
  unfold RaceInv
  cases ev with
  | start i =>
    simp only [raceStep]
    refine ⟨?_, ?_, ?_⟩
    · intro p hp
      simp only [List.mem_append, List.mem_singleton] at hp
      rcases hp with hp | hp
      · have := hlt p hp; omega
      · subst hp; simp
    · intro p hp hnab
      simp only [List.mem_append, List.mem_singleton] at hp
      rcases hp with hp | hp
      · exfalso
        cases hc : s.controller with
        | none =>
          rw [hc] at hnab
          have := hctl p hp hnab
          rw [hc] at this
          exact Option.noConfusion this
        | some t =>
          rw [hc] at hnab
          have hne : p.2 ∉ s.aborted := fun hab => hnab (List.mem_cons_of_mem _ hab)
          have := hctl p hp hne
          rw [hc] at this
          have hpt : t = p.2 := Option.some.inj this
          exact hnab (hpt ▸ List.mem_cons_self t s.aborted)
      · subst hp; rfl
    · simp only [List.map_append, List.map_cons, List.map_nil]
      rw [List.nodup_append]
      refine ⟨hnodup, List.nodup_singleton _, ?_⟩
      intro t ht ht'
      simp only [List.mem_singleton] at ht'
      rcases List.mem_map.mp ht with ⟨p, hp, hpt⟩
      have := hlt p hp
      omega
  | respond i =>
    simp only [raceStep]
    cases hf : s.inFlight.find? (fun p => p.1 == i) with
    | none => exact ⟨hlt, hctl, hnodup⟩
    | some flight =>
      have hsub : List.Sublist (s.inFlight.filter (fun p => p.1 != i)) s.inFlight :=
        List.filter_sublist _
      have base :
          (∀ p ∈ s.inFlight.filter (fun p => p.1 != i), p.2 < s.nextToken)
          ∧ (∀ p ∈ s.inFlight.filter (fun p => p.1 != i),
              p.2 ∉ s.aborted → s.controller = some p.2)
          ∧ ((s.inFlight.filter (fun p => p.1 != i)).map Prod.snd).Nodup := by
        refine ⟨?_, ?_, ?_⟩
        · intro p hp
          exact hlt p (hsub.subset hp)
        · intro p hp hn
          exact hctl p (hsub.subset hp) hn
        · exact List.Nodup.sublist (hsub.map Prod.snd) hnodup
      simp only []
      by_cases hab : flight.2 ∈ s.aborted
      · rw [if_pos hab]
        exact base
      · rw [if_neg hab]
        exact base

theorem raceInv_foldl (evs : List FetchEv) (s : RaceState) (h : RaceInv s) :
    RaceInv (evs.foldl raceStep s) := by
  induction evs generalizing s with
  | nil => exact h
  | cons ev rest ih => exact ih (raceStep s ev) (raceInv_step s h ev)

theorem nodup_const_length_le_one (l : List Nat) (t : Nat) (hnd : l.Nodup)
    (hall : ∀ x ∈ l, x = t) : l.length ≤ 1 := by
  cases l with
  | nil => simp
  | cons x xs =>
    cases xs with
    | nil => simp
    | cons y ys =>
      exfalso
      have hx : x = t := hall x (by simp)
      have hy : y = t := hall y (by simp)
      rw [List.nodup_cons] at hnd
      exact hnd.1 (by simp [hx, hy])

theorem uncancelled_length_le_one (s : RaceState) (h : RaceInv s) :
    (uncancelled s).length ≤ 1 := by
  obtain ⟨-, hctl, hnodup⟩ := h
  have hmem : ∀ p ∈ uncancelled s, p.2 ∉ s.aborted ∧ p ∈ s.inFlight := by
    intro p hp
    rw [uncancelled, List.mem_filter] at hp
    exact ⟨of_decide_eq_true hp.2, hp.1⟩
  cases hc : s.controller with
  | none =>
    have hnil : uncancelled s = [] := by
      rw [List.eq_nil_iff_forall_not_mem]
      intro p hp
      obtain ⟨hnab, hfl⟩ := hmem p hp
      have := hctl p hfl hnab
      rw [hc] at this
      exact Option.noConfusion this
    simp [hnil]
  | some t =>
    have hlen : (uncancelled s).length = ((uncancelled s).map Prod.snd).length := by
      simp
    rw [hlen]
    apply nodup_const_length_le_one _ t
    · unfold uncancelled
      exact hnodup.sublist ((List.filter_sublist _).map Prod.snd)
    · intro x hx
      rcases List.mem_map.mp hx with ⟨p, hp, hpx⟩
      obtain ⟨hnab, hfl⟩ := hmem p hp
      have h1 := hctl p hfl hnab
      rw [hc] at h1
      have h2 : t = p.2 := Option.some.inj h1
      omega

end GDS

/-- Claim C1: for every API response data object accepted after the success
check, `normalize appId data` yields a record whose `dlc` field is the
element-wise stringification of the response's `dlc` array (empty when the
field is absent), whose `isReleased` flag is true exactly when
`release_date.coming_soon` is strictly equal to `false` (any other value,
including an absent `release_date` or absent `coming_soon`, gives
`isReleased = false`), and whose `releaseDate` is taken verbatim from
`release_date.date`. -/
theorem c1_normalize_dlc_and_released (appId : String) (data : Option GDS.SteamApiAppData)
    (nowIso : String) :
    (GDS.normalize appId data nowIso).dlc
        = ((data.bind GDS.SteamApiAppData.dlc).getD []).map toString
    ∧ ((GDS.normalize appId data nowIso).isReleased = true ↔
        (data.bind GDS.SteamApiAppData.release_date).bind GDS.ReleaseDate.coming_soon
          = some false)
    ∧ (GDS.normalize appId data nowIso).releaseDate
        = (data.bind GDS.SteamApiAppData.release_date).bind GDS.ReleaseDate.date := by
  cases data <;> simp [GDS.normalize, GDS.emptyAppData]

/-- Claim C2 (counterexample): the deduplication utility does not keep, for
every key occurring in the input, the first entry with that key — an entry
whose key is the empty string is dropped even though it is the first (and
only) occurrence of that key. -/
theorem c2_dedup_counterexample :
    GDS.deduplicate ["", "a"] (fun s => s) = ["a"]
    ∧ ("" : String) ∈ ["", "a"]
    ∧ ("" : String) ∉ GDS.deduplicate ["", "a"] (fun s => s) := by
  refine ⟨by decide, by decide, by decide⟩

/-- Claim C2 (amended): for every list of records and every key-extraction
function, the deduplication utility returns a sublist of the input (so the
relative order of kept entries is preserved and the output is no longer
than the input) whose extracted keys are pairwise distinct, and for each
non-empty key it keeps exactly the first input occurrence of that key;
entries whose extracted key is the empty string are dropped. -/
theorem c2_dedup_amended {α : Type} (l : List α) (resolver : α → String) :
    List.Sublist (GDS.deduplicate l resolver) l
    ∧ ((GDS.deduplicate l resolver).map resolver).Nodup
    ∧ (GDS.deduplicate l resolver).length ≤ l.length
    ∧ (∀ k, k ≠ "" →
        (GDS.deduplicate l resolver).find? (fun e => resolver e == k)
          = l.find? (fun e => resolver e == k)) :=
  ⟨GDS.deduplicate_sublist l resolver,
   GDS.deduplicate_keys_nodup l resolver,
   (GDS.deduplicate_sublist l resolver).length_le,
   fun k hk => GDS.deduplicate_find? l resolver k hk⟩

/-- Claim C2 (witness): on the list `["a", "b", "a"]` with the identity key,
the utility keeps the first "a" (the `find?` for key "a" agrees with the
input's) and returns `["a", "b"]`. -/
theorem c2_dedup_amended_witness :
    (GDS.deduplicate ["a", "b", "a"] (fun s => s)).find? (fun e => e == "a")
      = (["a", "b", "a"].find? (fun e => e == "a"))
    ∧ GDS.deduplicate ["a", "b", "a"] (fun s => s) = ["a", "b"] :=
  ⟨(c2_dedup_amended ["a", "b", "a"] (fun s => s)).2.2.2 "a" (by decide), by decide⟩

/-- Claim C10: the deduplication utility drops every entry whose extracted
key is the empty string, even when that entry is the only one with its key;
consequently every record returned by the scraper collection operations has
a non-empty identifying key, and the utility's output can omit an input
entry that is not a duplicate of anything (`""` in `["x", ""]`). -/
theorem c10_dedup_drops_empty_keys :
    (∀ (α : Type) (l : List α) (resolver : α → String),
        ∀ e ∈ GDS.deduplicate l resolver, resolver e ≠ "")
    ∧ (∀ rows, ∀ e ∈ GDS.collectDlc rows, e.id ≠ "")
    ∧ (∀ rows, ∀ e ∈ GDS.collectAchievements rows, e.name ≠ "")
    ∧ (∀ rows, ∀ e ∈ GDS.collectDepots rows, e.id ≠ "")
    ∧ GDS.deduplicate ["x", ""] (fun s => s) = ["x"] :=
  ⟨fun _ l resolver => GDS.deduplicate_key_ne_empty l resolver,
   fun rows e he => GDS.deduplicate_key_ne_empty _ _ e he,
   fun rows e he => GDS.deduplicate_key_ne_empty _ _ e he,
   fun rows e he => GDS.deduplicate_key_ne_empty _ _ e he,
   by decide⟩

/-- Claim C10 (witness): on the one-row DLC page with id "7" and name "n",
the collected record is `{id := "7", name := "n"}` and its key is
non-empty. -/
theorem c10_dedup_drops_empty_keys_witness :
    GDS.collectDlc [⟨some "7", [⟨"n", none⟩]⟩] = [⟨"7", "n"⟩]
    ∧ ({ id := "7", name := "n" } : GDS.SteamDbDlcEntry).id ≠ "" :=
  ⟨by decide,
   c10_dedup_drops_empty_keys.2.1 [⟨some "7", [⟨"n", none⟩]⟩] ⟨"7", "n"⟩ (by decide)⟩

/-- Claim C6: reconciliation picks exactly one DLC source — a non-empty
scraped list is used as-is (independently of the store record), otherwise
the id-only list of the last normalized store record is used; and at the
consumption boundary each bare id is wrapped into a minimal record whose id
is the bare id and whose name is the synthetic `DLC <id>`. -/
theorem c6_reconcile_single_source (scraped : List GDS.SteamDbDlcEntry)
    (store : Option GDS.AppPayload) :
    (scraped ≠ [] → GDS.reconcileDlc scraped store = scraped.map GDS.DlcInput.entry)
    ∧ (scraped = [] → GDS.reconcileDlc scraped store
        = ((store.map GDS.AppPayload.dlc).getD []).map GDS.DlcInput.str)
    ∧ (scraped ≠ [] → GDS.reconcileDlc scraped store = GDS.reconcileDlc scraped none)
    ∧ (∀ s, GDS.dlcInputId (GDS.DlcInput.str s) = s
        ∧ GDS.dlcInputName (GDS.DlcInput.str s) = "DLC " ++ s) := by
  refine ⟨?_, ?_, ?_, ?_⟩
  · intro h
    rw [GDS.reconcileDlc, if_pos (by simpa using h)]
  · intro h
    subst h
    rw [GDS.reconcileDlc, if_neg (by simp)]
  · intro h
    rw [GDS.reconcileDlc, if_pos (by simpa using h),
      GDS.reconcileDlc, if_pos (by simpa using h)]
  · intro s
    exact ⟨rfl, rfl⟩

/-- Claim C6 (witness): one scraped record wins over a populated store
record, and a bare id "3" wraps to id "3" and name "DLC 3". -/
theorem c6_reconcile_single_source_witness :
    GDS.reconcileDlc [⟨"1", "A"⟩] (some GDS.samplePayload)
      = [GDS.DlcInput.entry ⟨"1", "A"⟩]
    ∧ GDS.dlcInputName (GDS.DlcInput.str "3") = "DLC 3" :=
  ⟨(c6_reconcile_single_source [⟨"1", "A"⟩] (some GDS.samplePayload)).1 (by decide),
   ((c6_reconcile_single_source [] none).2.2.2 "3").2⟩

/-- Claim C7: the CreamAPI exporter emits the comment header naming the
tool, a `[steam]` section with `appid = <id>`, a blank line, and a `[dlc]`
section with one line per input entry of the form
`dlc<1-based-index> = <id> ; <name>` in input order; on the records
`[{id:"10", name:"Alpha"}, {id:"20", name:"Beta"}]` with subject id "500"
the output contains the lines `appid = 500`, `dlc1 = 10 ; Alpha`,
`dlc2 = 20 ; Beta` in that order. -/
theorem c7_creamapi_format :
    (∀ appId entries, GDS.creamApi appId entries
        = "; cream_api autogenerated by Get Data from Steam / SteamDB\n[steam]\nappid = "
          ++ appId ++ "\n\n[dlc]\n" ++ String.intercalate "\n" (GDS.creamApiLines entries))
    ∧ (∀ entries, (GDS.creamApiLines entries).length = entries.length)
    ∧ (∀ entries (i : Nat), (GDS.creamApiLines entries)[i]?
        = (entries[i]?).map (fun item =>
            "dlc" ++ toString (i + 1) ++ " = " ++ GDS.dlcInputId item
              ++ " ; " ++ GDS.dlcInputName item))
    ∧ GDS.creamApi "500" [GDS.DlcInput.entry ⟨"10", "Alpha"⟩, GDS.DlcInput.entry ⟨"20", "Beta"⟩]
        = "; cream_api autogenerated by Get Data from Steam / SteamDB\n[steam]\nappid = 500\n\n[dlc]\ndlc1 = 10 ; Alpha\ndlc2 = 20 ; Beta" := by
  refine ⟨fun appId entries => rfl, fun entries => ?_, fun entries i => ?_, by decide⟩
  · rw [GDS.creamApiLines, GDS.mapWithIndex_length]
  · rw [GDS.creamApiLines, GDS.mapWithIndex_getElem?]
    simp

/-- Claim C8 (counterexample): an achievements row with derivable id "999"
and an empty name cell yields a record whose display name is the api name
"999" itself, not a synthesized `"<Kind> <id>"` name such as
"Achievement 999". -/
theorem c8_fallback_counterexample :
    (GDS.collectAchievements [⟨some "999", none, none, none, none⟩]).map
        GDS.SteamDbAchievementEntry.displayName = ["999"]
    ∧ ("999" : String) ≠ "Achievement 999" := by
  refine ⟨by decide, by decide⟩

/-- Claim C8 (amended): for DLC and depot rows whose name cell is empty but
whose id is derivable, the returned record's name is the synthesized
fallback `"<Kind> <id>"` (`DLC <id>` or `Depot <id>`); for an achievements
row whose name cell is empty the display name falls back to the row's
internal api name instead; in all cases every record returned by
`collectDlc`, `collectAchievements`, or `collectDepots` has a non-empty
display name.  A DLC row with id "999" and empty name cell yields
`{id := "999", name := "DLC 999"}`. -/
theorem c8_fallback_names :
    (∀ row : GDS.DlcRow, row.cells.isEmpty = false → GDS.dlcRowId row ≠ "" →
        GDS.dlcRowName row = "" →
        GDS.collectDlcRow row
          = [⟨GDS.jsTrim (GDS.dlcRowId row), "DLC " ++ GDS.jsTrim (GDS.dlcRowId row)⟩])
    ∧ (∀ row : GDS.DepotRow, row.cells.isEmpty = false → GDS.depotRowId row ≠ "" →
        GDS.depotRowName row = "" →
        (GDS.collectDepotRow row).map GDS.SteamDbDepotEntry.name
          = ["Depot " ++ GDS.jsTrim (GDS.depotRowId row)])
    ∧ (∀ row : GDS.AchRow, GDS.achRowApiName row ≠ "" → GDS.text row.td3 = "" →
        (GDS.collectAchRow row).map GDS.SteamDbAchievementEntry.displayName
          = [GDS.achRowApiName row])
    ∧ (∀ rows, ∀ e ∈ GDS.collectDlc rows, e.name ≠ "")
    ∧ (∀ rows, ∀ e ∈ GDS.collectAchievements rows, e.displayName ≠ "")
    ∧ (∀ rows, ∀ e ∈ GDS.collectDepots rows, e.name ≠ "")
    ∧ GDS.collectDlcRow ⟨some "999", [⟨"", none⟩]⟩ = [⟨"999", "DLC 999"⟩] := by
  refine ⟨?_, ?_, ?_, GDS.mem_collectDlc_name_ne,
    GDS.mem_collectAchievements_displayName_ne, GDS.mem_collectDepots_name_ne, by decide⟩
  · intro row h1 h2 h3
    rw [GDS.collectDlcRow, if_neg (by simp [h1]), if_neg h2, if_pos h3]
  · intro row h1 h2 h3
    rw [GDS.collectDepotRow, if_neg (by simp [h1]), if_neg h2]
    simp [h3]
  · intro row h1 h2
    rw [GDS.collectAchRow, if_neg h1]
    simp [h2]

/-- Claim C8 (witness): a DLC row whose `data-appid` is " 42 " (derivable,
trimming to "42") and whose only cell is empty yields the synthetic record
`{id := "42", name := "DLC 42"}`. -/
theorem c8_fallback_names_witness :
    GDS.collectDlcRow ⟨some " 42 ", [⟨"", none⟩]⟩ = [⟨"42", "DLC 42"⟩] := by
  rw [c8_fallback_names.1 ⟨some " 42 ", [⟨"", none⟩]⟩ (by decide) (by decide) (by decide)]
  decide

/-- Claim C9: each scraper collection operation returns successfully on
every page state — zero matching rows yield the empty list, and a row from
which no usable id can be derived (no cells, or a falsy derived id — for
achievements a falsy api name) contributes zero entries while every
subsequent row in the same section is still processed. -/
theorem c9_scraper_absorbs_bad_rows :
    (GDS.collectDlc [] = [] ∧ GDS.collectAchievements [] = []
      ∧ GDS.collectDepots [] = [])
    ∧ (∀ row rows, row.cells.isEmpty = true ∨ GDS.dlcRowId row = "" →
        GDS.collectDlc (row :: rows) = GDS.collectDlc rows)
    ∧ (∀ row rows, GDS.achRowApiName row = "" →
        GDS.collectAchievements (row :: rows) = GDS.collectAchievements rows)
    ∧ (∀ row rows, row.cells.isEmpty = true ∨ GDS.depotRowId row = "" →
        GDS.collectDepots (row :: rows) = GDS.collectDepots rows) := by
  refine ⟨⟨rfl, rfl, rfl⟩, ?_, ?_, ?_⟩
  · intro row rows h
    rw [GDS.collectDlc, GDS.collectDlc, List.flatMap_cons,
      GDS.collectDlcRow_eq_nil row h, List.nil_append]
  · intro row rows h
    rw [GDS.collectAchievements, GDS.collectAchievements, List.flatMap_cons,
      GDS.collectAchRow_eq_nil row h, List.nil_append]
  · intro row rows h
    rw [GDS.collectDepots, GDS.collectDepots, List.flatMap_cons,
      GDS.collectDepotRow_eq_nil row h, List.nil_append]

/-- Claim C9 (witness): a DLC row whose only cell is whitespace (derived id
trims to "", no data attribute) contributes nothing, and the following row
is still collected. -/
theorem c9_scraper_absorbs_bad_rows_witness :
    GDS.collectDlc [⟨none, [⟨"  ", none⟩]⟩, ⟨some "5", [⟨"G", none⟩]⟩]
      = GDS.collectDlc [⟨some "5", [⟨"G", none⟩]⟩]
    ∧ GDS.collectDlc [⟨some "5", [⟨"G", none⟩]⟩] = [⟨"5", "G"⟩] :=
  ⟨c9_scraper_absorbs_bad_rows.2.1 ⟨none, [⟨"  ", none⟩]⟩ [⟨some "5", [⟨"G", none⟩]⟩]
      (Or.inr (by decide)),
   by decide⟩

/-- Claim C3: when the cache store holds an entry under `gds:store:<appId>`,
`fetch(appId, false)` returns the stored record verbatim, leaves the client
state unchanged, and issues zero network calls; hence two successive such
calls return identical records and the second also performs zero network
calls. -/
theorem c3_cache_hit_idempotent (env : GDS.FetchEnv) (st : GDS.ClientState) (appId : String)
    (rec : GDS.AppPayload) (h : GDS.readCache st.cache (GDS.cacheKey appId) = some rec) :
    (GDS.fetchStep env st appId false).result = Except.ok rec
    ∧ (GDS.fetchStep env st appId false).networkCalls = 0
    ∧ (GDS.fetchStep env st appId false).state = st
    ∧ (GDS.fetchStep env (GDS.fetchStep env st appId false).state appId false).result
        = Except.ok rec
    ∧ (GDS.fetchStep env (GDS.fetchStep env st appId false).state appId false).networkCalls
        = 0 := by
  have h1 : GDS.fetchStep env st appId false = ⟨Except.ok rec, st, 0⟩ := by
    simp [GDS.fetchStep, h]
  refine ⟨?_, ?_, ?_, ?_, ?_⟩ <;> simp [h1]

/-- Claim C3 (witness): with the fixture cache holding `samplePayload` under
`gds:store:10`, both successive cache-hitting fetches return it and the
second issues zero network calls. -/
theorem c3_cache_hit_idempotent_witness :
    (GDS.fetchStep GDS.sampleEnvOk GDS.sampleCachedState "10" false).result
      = Except.ok GDS.samplePayload
    ∧ (GDS.fetchStep GDS.sampleEnvOk
        (GDS.fetchStep GDS.sampleEnvOk GDS.sampleCachedState "10" false).state
        "10" false).networkCalls = 0 :=
  ⟨(c3_cache_hit_idempotent GDS.sampleEnvOk GDS.sampleCachedState "10" GDS.samplePayload
      (by decide)).1,
   (c3_cache_hit_idempotent GDS.sampleEnvOk GDS.sampleCachedState "10" GDS.samplePayload
      (by decide)).2.2.2.2⟩

/-- Claim C5: a record is written to the cache only after normalization has
fully succeeded — a failing fetch leaves the cache unchanged, a transport
failure or a missing success marker on the network path produces the
corresponding error, any cache change carries exactly the normalized record
of the response, and a failing cache write is swallowed: it leaves the
cache unchanged yet does not change the fetch's result. -/
theorem c5_cache_write_discipline (env : GDS.FetchEnv) (st : GDS.ClientState)
    (appId : String) (force : Bool) :
    (∀ e, (GDS.fetchStep env st appId force).result = Except.error e →
        (GDS.fetchStep env st appId force).state.cache = st.cache)
    ∧ (env.writeFails = true → (GDS.fetchStep env st appId force).state.cache = st.cache)
    ∧ ((GDS.fetchStep { env with writeFails := true } st appId force).result
        = (GDS.fetchStep { env with writeFails := false } st appId force).result)
    ∧ ((GDS.fetchStep env st appId force).state.cache ≠ st.cache →
        (GDS.fetchStep env st appId force).result
          = Except.ok (GDS.normalize appId (env.payload.bind GDS.SteamApiResponse.data) env.now))
    ∧ ((if force then none else GDS.readCache st.cache (GDS.cacheKey appId)) = none →
        env.ok = false →
        (GDS.fetchStep env st appId force).result
          = Except.error ("Steam Store API responded with " ++ toString env.status))
    ∧ ((if force then none else GDS.readCache st.cache (GDS.cacheKey appId)) = none →
        env.ok = true →
        (env.payload.map GDS.SteamApiResponse.success).getD false = false →
        (GDS.fetchStep env st appId force).result
          = Except.error "Steam Store API returned an empty response") := by
  refine ⟨?_, ?_, ?_, ?_, ?_, ?_⟩
  · intro e
    simp only [GDS.fetchStep]
    split
    · intro h
      exact Except.noConfusion h
    · split
      · intro _
        rfl
      · split
        · split
          · intro h
            exact Except.noConfusion h
          · intro _
            rfl
        · intro _
          rfl
  · intro hw
    simp only [GDS.fetchStep]
    split
    · rfl
    · split
      · rfl
      · split
        · split
          · simp [hw]
          · rfl
        · rfl
  · simp only [GDS.fetchStep]
    split
    · rfl
    · split
      · rfl
      · split
        · split
          · rfl
          · rfl
        · rfl
  · simp only [GDS.fetchStep]
    split
    · intro hne
      exact absurd rfl hne
    · split
      · intro hne
        exact absurd rfl hne
      · split
        · split
          · rename_i hpayload hsucc
            intro _
            simp only [hpayload, Option.bind_some]
            rfl
          · intro hne
            exact absurd rfl hne
        · intro hne
          exact absurd rfl hne
  · intro hc hok
    simp only [GDS.fetchStep, hc, hok]
    simp
  · intro hc hok hsucc
    cases hp : env.payload with
    | none =>
      simp [GDS.fetchStep, hc, hok, hp]
    | some entry =>
      rw [hp] at hsucc
      simp at hsucc
      simp [GDS.fetchStep, hc, hok, hp, hsucc]

/-- Claim C5 (witness): with an HTTP 500 transport, an empty cache and a
forced refresh, the fetch fails with the status message and performs no
cache write. -/
theorem c5_cache_write_discipline_witness :
    (GDS.fetchStep GDS.sampleEnvHttp500 ⟨[], none⟩ "7" true).result
      = Except.error "Steam Store API responded with 500"
    ∧ (GDS.fetchStep GDS.sampleEnvHttp500 ⟨[], none⟩ "7" true).state.cache
      = ([] : List (String × GDS.AppPayload)) := by
  have h5 := c5_cache_write_discipline GDS.sampleEnvHttp500 ⟨[], none⟩ "7" true
  have hr := h5.2.2.2.2.1 (by rfl) (by rfl)
  exact ⟨hr.trans (congrArg Except.error (by decide)), h5.1 _ hr⟩

/-- Claim C4: overlapping forced fetches on one client are raced through
the cancellation token: at every reachable state at most one in-flight
network call is uncancelled; after the second fetch starts, the first
call's token is already aborted while both calls are in flight; and in
either resolution order exactly one response — the second call's — is
applied to the cache and returned, the first call ending in an abort error
and never overwriting the second call's result. -/
theorem c4_cancellation_race :
    (∀ evs : List GDS.FetchEv, (GDS.uncancelled (GDS.race evs)).length ≤ 1)
    ∧ ((GDS.race [GDS.FetchEv.start 1, GDS.FetchEv.start 2]).aborted = [0]
      ∧ (GDS.race [GDS.FetchEv.start 1, GDS.FetchEv.start 2]).inFlight = [(1, 0), (2, 1)]
      ∧ (GDS.race [GDS.FetchEv.start 1, GDS.FetchEv.start 2]).controller = some 1)
    ∧ ((GDS.race [GDS.FetchEv.start 1, GDS.FetchEv.start 2, GDS.FetchEv.respond 1,
          GDS.FetchEv.respond 2]).applied = [2]
      ∧ (GDS.race [GDS.FetchEv.start 1, GDS.FetchEv.start 2, GDS.FetchEv.respond 1,
          GDS.FetchEv.respond 2]).failed = [1]
      ∧ (GDS.race [GDS.FetchEv.start 1, GDS.FetchEv.start 2, GDS.FetchEv.respond 1,
          GDS.FetchEv.respond 2]).cacheFrom = some 2)
    ∧ ((GDS.race [GDS.FetchEv.start 1, GDS.FetchEv.start 2, GDS.FetchEv.respond 2,
          GDS.FetchEv.respond 1]).applied = [2]
      ∧ (GDS.race [GDS.FetchEv.start 1, GDS.FetchEv.start 2, GDS.FetchEv.respond 2,
          GDS.FetchEv.respond 1]).failed = [1]
      ∧ (GDS.race [GDS.FetchEv.start 1, GDS.FetchEv.start 2, GDS.FetchEv.respond 2,
          GDS.FetchEv.respond 1]).cacheFrom = some 2) := by
  refine ⟨?_, by decide, by decide, by decide⟩
  intro evs
  exact GDS.uncancelled_length_le_one _ (GDS.raceInv_foldl evs _ GDS.raceInv_init)

/-- Claim C1 (witness): a response with `coming_soon = false`, release date
"d" and dlc ids `[3, 5]` normalizes to `dlc = ["3", "5"]` with
`isReleased = true`. -/
theorem c1_normalize_dlc_and_released_witness :
    (GDS.normalize "1"
      (some ⟨none, none, some ⟨some "d", some false⟩, none, none, none, none, none,
        some [3, 5]⟩) "t").dlc = ["3", "5"]
    ∧ (GDS.normalize "1"
      (some ⟨none, none, some ⟨some "d", some false⟩, none, none, none, none, none,
        some [3, 5]⟩) "t").isReleased = true := by
  have h := c1_normalize_dlc_and_released "1"
    (some ⟨none, none, some ⟨some "d", some false⟩, none, none, none, none, none,
      some [3, 5]⟩) "t"
  exact ⟨h.1.trans (by decide), h.2.1.mpr (by decide)⟩

/-- Claim C7 (witness): the single bare id "9" produces the body line
`dlc1 = 9 ; DLC 9` at index 0. -/
theorem c7_creamapi_format_witness :
    (GDS.creamApiLines [GDS.DlcInput.str "9"])[0]? = some "dlc1 = 9 ; DLC 9" :=
  (c7_creamapi_format.2.2.1 [GDS.DlcInput.str "9"] 0).trans (by decide)

/-- Claim C4 (witness): after two overlapping starts, at most one in-flight
call is uncancelled. -/
theorem c4_cancellation_race_witness :
    (GDS.uncancelled (GDS.race [GDS.FetchEv.start 1, GDS.FetchEv.start 2])).length ≤ 1 :=
  c4_cancellation_race.1 [GDS.FetchEv.start 1, GDS.FetchEv.start 2]
